import Mathlib

/-!
# Verification of the second-brain routing-and-retrieval subsystem

Shallow embedding, in Lean 4, of the message router (`api/agents/director.py`),
the three-stage retrieval pipeline (`api/agents/qa_agent.py`,
`api/agents/research_agent.py`) and the background indexer (`api/indexer.py`).
External collaborators (LLM completions, embeddings, the vector index, the
CouchDB document store, the Cohere reranker) are modelled as explicit inputs:
a fallible external call is an `Option`-valued input where `none` models the
call raising an exception.  Python floats used as relevance scores are
modelled as rationals; Python strings as Lean `String`.
-/

namespace SecondBrain

/-!
## Python string operations

Implemented over `String.data` (the underlying character list) so that every
definition evaluates inside the kernel.
-/

/-- Lowercasing as Python's `str.lower` acts on the alphabets appearing in the
source: ASCII `A`-`Z` and Cyrillic `А`-`Я`/`Ё` (the interrogative lists and
classifier labels only contain these). Other characters are unchanged. -/
def pyLowerChar (c : Char) : Char :=
  if 'A' ≤ c ∧ c ≤ 'Z' then Char.ofNat (c.toNat + 32)
  else if 'А' ≤ c ∧ c ≤ 'Я' then Char.ofNat (c.toNat + 32)
  else if c = 'Ё' then 'ё'
  else c

/-- `s.lower()` on a whole string. -/
def pyLower (s : String) : String := String.mk (s.data.map pyLowerChar)

/-- `c in s` for a single character. -/
def pyContainsChar (s : String) (c : Char) : Bool := s.data.contains c

/-- `s.startswith(q)`. -/
def pyStartsWith (s q : String) : Bool := q.data.isPrefixOf s.data

/-- `s.strip()`: remove whitespace from both ends. -/
def pyStrip (s : String) : String :=
  String.mk (((s.data.dropWhile Char.isWhitespace).reverse.dropWhile
    Char.isWhitespace).reverse)

/-- `len(s)`: Python string length counts characters. -/
def pyLen (s : String) : Nat := s.data.length

/-- `s[:n]`: Python slicing counts characters. -/
def pyTake (s : String) (n : Nat) : String := String.mk (s.data.take n)

/-- `len(s.split())` — Python's whitespace split drops empty fragments. -/
def pyWordCount (s : String) : Nat :=
  ((s.data.splitOnP Char.isWhitespace).filter (· ≠ [])).length

/-- `needle in haystack` — Python substring containment. -/
def pyHasSubstr (needle : String) : List Char → Bool
  | [] => needle.data.isEmpty
  | c :: cs => needle.data.isPrefixOf (c :: cs) || pyHasSubstr needle cs

/-! ## Message router (`MessageDirector`, `api/agents/director.py`) -/

/-- The three intent labels produced by `MessageDirector._analyze_intent`. -/
inductive Intent
  | question
  | note
  | command
deriving DecidableEq, Repr

/-- The interrogative words checked by `MessageDirector._analyze_intent`. -/
def directorInterrogatives : List String :=
  ["что", "где", "когда", "как", "почему", "кто",
   "what", "where", "when", "how", "why", "who"]

/-- The question heuristic inside `_analyze_intent`:
`'?' in message or any(message.lower().startswith(q) for q in [...])`. -/
def directorIsQuestionHeuristic (message : String) : Bool :=
  pyContainsChar message '?' ||
    directorInterrogatives.any (fun q => pyStartsWith (pyLower message) q)

/-- The deterministic (heuristic) part of `_analyze_intent`.  Returns `none`
exactly when the source falls through to the LLM classification call. -/
def heuristicIntent (message : String) : Option Intent :=
  if pyStartsWith (pyStrip message) "/" then some .command
  else if directorIsQuestionHeuristic message then some .question
  else if pyWordCount message < 15 then some .note
  else none

/-- `MessageDirector._analyze_intent`.  `llmResponse` is the outcome of the
`llm.complete` call made in the ambiguous case (`none` = the call raised);
the parsed single-word label is accepted only if it is one of the three
intents, otherwise the source defaults to `note`. -/
def analyzeIntent (llmResponse : Option String) (message : String) : Intent :=
  match heuristicIntent message with
  | some i => i
  | none =>
    match llmResponse with
    | none => .note
    | some r =>
      let intent := pyLower (pyStrip r)
      if intent = "question" then .question
      else if intent = "note" then .note
      else if intent = "command" then .command
      else .note

/-- Which agents are registered with the director (`register_agent` populates
`_agent_map`; `get_agent` is a name lookup). -/
structure Registry where
  research : Bool
  qa : Bool
  noteTaker : Bool
deriving DecidableEq, Repr

/-- Where `route_message` dispatches. -/
inductive RouteTarget
  | research
  | qa
  | noteTaker
  | noAgent
deriving DecidableEq, Repr

/-- Result of one `route_message` call: the dispatch target, whether
`_analyze_intent` was invoked at all, and whether that invocation fell
through to the LLM classification call. -/
structure RouteOutcome where
  target : RouteTarget
  classified : Bool
  usedLLM : Bool
deriving DecidableEq, Repr

/-- `MessageDirector.route_message`.  `awaiting_research` is the context's
explicit-mode flag; `llmResponse` feeds `_analyze_intent`'s fallback call. -/
def route_message (reg : Registry) (llmResponse : Option String)
    (awaiting_research : Bool) (message : String) : RouteOutcome :=
  if awaiting_research ∧ reg.research then
    { target := .research, classified := false, usedLLM := false }
  else
    let intent := analyzeIntent llmResponse message
    let usedLLM := (heuristicIntent message).isNone
    if intent = .question ∧ reg.qa then
      { target := .qa, classified := true, usedLLM := usedLLM }
    else if reg.noteTaker then
      { target := .noteTaker, classified := true, usedLLM := usedLLM }
    else
      { target := .noAgent, classified := true, usedLLM := usedLLM }

/-! ## Agent responses (`api/agents/base_agent.py`) -/

/-- The metadata keys the Q&A / research responses populate
(`found_count`, `reranked_count`, `sources`, `documents_analyzed`);
a key absent from the Python dict is `none`. -/
structure RespMeta where
  found_count : Option Nat := none
  reranked_count : Option Nat := none
  sources : Option (List String) := none
  documents_analyzed : Option Nat := none
deriving DecidableEq, Repr

/-- `AgentResponse` dataclass. -/
structure AgentResponse where
  text : String
  success : Bool := true
  metadata : Option RespMeta := none
  suggested_actions : Option (List String) := none
deriving DecidableEq, Repr

/-! ## Retrieval pipeline stage 2 (`QAAgent._stage2_hybrid_search`) -/

/-- One hit returned by `VectorStoreClient.search_similar` (the dict built in
`vector_store.py`: `note_id`, `score` and the payload fields). -/
structure VecHit where
  note_id : String
  score : ℚ
  category : String
  tags : List String
  keywords : List String
  summary : String
  mtime : Nat
deriving DecidableEq, Repr

/-- One document returned by `couchdb.search_documents`: the fields the stage
reads are `_id` (possibly absent), `path` and `data`. -/
structure TextDoc where
  idField : Option String
  path : String
  data : String
deriving DecidableEq, Repr

/-- `doc.get('_id') or doc.get('path', '')` — Python `or` falls through to
`path` both when `_id` is absent and when it is the empty string. -/
def textDocId (d : TextDoc) : String :=
  match d.idField with
  | some s => if s = "" then d.path else s
  | none => d.path

/-- `doc.get('path','').rsplit('/',1)[0]`: everything before the last `/`. -/
def beforeLastSlash (path : String) : String :=
  String.mk (((path.data.reverse.dropWhile (· ≠ '/')).drop 1).reverse)

/-- Category assigned to a full-text candidate:
`path.rsplit('/',1)[0] if '/' in path else 'Inbox'`. -/
def textDocCategory (d : TextDoc) : String :=
  if pyContainsChar d.path '/' then beforeLastSlash d.path else "Inbox"

/-- A stage-2 candidate: the dict keys later stages read
(`note_id`, `search_source`, `search_score`, `summary`, `category`, `tags`).
Full-text candidates carry no `tags` key; `cand.get('tags', [])` then yields
`[]`, which is how they are modelled. -/
structure Candidate where
  note_id : String
  search_source : String
  search_score : ℚ
  summary : String
  category : String
  tags : List String
deriving DecidableEq, Repr

/-- Tagging of one vector hit inside `_stage2_hybrid_search`
(`search_source = 'vector'`, `search_score = result['score']`). -/
def vecCandidate (v : VecHit) : Candidate :=
  { note_id := v.note_id, search_source := "vector", search_score := v.score,
    summary := v.summary, category := v.category, tags := v.tags }

/-- Candidate built from one full-text hit: flat default score `0.7`,
`summary = data[:200]`, category from the path. -/
def textCandidate (d : TextDoc) : Candidate :=
  { note_id := textDocId d, search_source := "fulltext", search_score := 7/10,
    summary := pyTake d.data 200, category := textDocCategory d, tags := [] }

/-- `QAAgent._stage2_hybrid_search`.  `vecResults` is the outcome of the
embed-then-vector-search block (`none` = either call raised, caught and
logged); `textResults` the outcome of `couchdb.search_documents` (`none` =
raised, caught and logged).  The dedup set `existing_ids` is computed once,
before the full-text loop, exactly as in the source; the merged list is then
truncated to `limit`. -/
def stage2HybridSearch (vecResults : Option (List VecHit))
    (textResults : Option (List TextDoc)) (limit : Nat) : List Candidate :=
  let vecCands : List Candidate :=
    match vecResults with
    | some vs => vs.map vecCandidate
    | none => []
  let candidates : List Candidate :=
    match textResults with
    | some ts =>
      let existingIds := vecCands.map Candidate.note_id
      vecCands ++ ts.filterMap (fun d =>
        if textDocId d ∈ existingIds then none else some (textCandidate d))
    | none => vecCands
  candidates.take limit

/-! ## Retrieval pipeline stage 3 -/

/-- A CouchDB document as read back by `get_document`: the stage only uses
its `data` field. -/
structure CouchDoc where
  data : String
deriving DecidableEq, Repr

/-- The reranked index list of `QAAgent._stage3_rerank_and_analyze`.
`cohere` models `self.cohere_client` being initialized; `rerank` is the index
list returned by the Cohere call (`none` = the call raised).  Both the
absent-client branch and the exception handler fall back to
`range(min(top_k, len(candidates)))`.  (`docs_for_rerank` is one text per
candidate, so its truthiness test is a nonemptiness test on `cands`.) -/
def qaRerankedIndices (cohere : Bool) (rerank : Option (List Nat))
    (cands : List Candidate) (topK : Nat) : List Nat :=
  if cohere ∧ cands ≠ [] then
    match rerank with
    | some is => is
    | none => List.range (min topK cands.length)
  else List.range (min topK cands.length)

/-- `ResearchAgent._rerank_and_load`'s index list differs from the Q&A one:
with no Cohere client the initial `range(len(candidates))` is kept
(only the exception handler uses `range(min(top_k, len(candidates)))`). -/
def researchRerankedIndices (cohere : Bool) (rerank : Option (List Nat))
    (cands : List Candidate) (topK : Nat) : List Nat :=
  if cohere ∧ cands ≠ [] then
    match rerank with
    | some is => is
    | none => List.range (min topK cands.length)
  else List.range cands.length

/-- `top_candidates = [candidates[i] for i in reranked_indices[:top_k]]` in
`_stage3_rerank_and_analyze`; an out-of-range index raises `IndexError`
(modelled by `none`), which propagates to `process`'s outer handler. -/
def qaTopCandidates (idxs : List Nat) (cands : List Candidate) (topK : Nat) :
    Option (List Candidate) :=
  (idxs.take topK).mapM (fun i => cands[i]?)

/-- A document loaded for answer generation:
`{'path': ..., 'content': doc['data'][:2000], 'category': ...}`. -/
structure ContextDoc where
  path : String
  content : String
  category : String
deriving DecidableEq, Repr

/-- The content-loading loop of `_stage3_rerank_and_analyze`: a per-document
`get_document` failure (`getDoc _ = none`) is logged and the candidate is
dropped. -/
def qaLoadContext (getDoc : String → Option CouchDoc)
    (top : List Candidate) : List ContextDoc :=
  top.filterMap (fun c =>
    (getDoc c.note_id).map (fun d =>
      { path := c.note_id, content := pyTake d.data 2000,
        category := c.category }))

/-- The source list appended to the Q&A answer:
`"\n\n📚 **Источники:**\n"` plus up to 5 enumerated paths. -/
def qaSourcesText (docs : List ContextDoc) : String :=
  "\n\n📚 **Источники:**\n" ++
    String.join ((docs.take 5).enum.map (fun p =>
      toString (p.1 + 1) ++ ". `" ++ p.2.path ++ "`\n"))

/-- External outcomes consumed by one `QAAgent.process` run: the two stage-2
sub-searches, the Cohere client and its reply, the document store, and the
`_generate_answer` completion call (`none` = raised, yielding the fixed
fallback text). -/
structure QARunEnv where
  vec : Option (List VecHit)
  text : Option (List TextDoc)
  cohere : Bool
  rerank : Option (List Nat)
  getDoc : String → Option CouchDoc
  answer : Option String

/-- `QAAgent._stage3_rerank_and_analyze`, returning the response paired with
the number of LLM completion calls attempted (`_generate_answer` makes one).
`none` models the `IndexError` raised by `candidates[i]` on an out-of-range
reranker index, which escapes to `process`'s outer handler.  The
`docs_for_rerank` texts (summary, falling back to a 500-char document slice,
falling back to the id) only feed the external reranker and do not influence
the result beyond `cands ≠ []`. -/
def qaStage3RerankAndAnalyze (env : QARunEnv) (cands : List Candidate)
    (topK : Nat) : Option (AgentResponse × Nat) :=
  let idxs := qaRerankedIndices env.cohere env.rerank cands topK
  match qaTopCandidates idxs cands topK with
  | none => none
  | some topCandidates =>
    let contextDocs := qaLoadContext env.getDoc topCandidates
    if contextDocs.isEmpty then
      some ({ text := "🤷 Нашел заметки, но не смог их загрузить.",
              success := true,
              metadata := some { found_count := some cands.length } }, 0)
    else
      let answerText :=
        match env.answer with
        | some a => pyStrip a
        | none => "❌ Не удалось сгенерировать ответ."
      some ({ text := answerText ++ qaSourcesText contextDocs,
              success := true,
              metadata := some
                { found_count := some cands.length,
                  reranked_count := some topCandidates.length,
                  sources := some (contextDocs.map (·.path)) } }, 1)

/-- `QAAgent.process`: stage 1 derives (currently empty) metadata filters,
stage 2 runs the hybrid search with `limit=50`, an empty candidate list
short-circuits to the "nothing found" response, otherwise stage 3 runs with
`top_k=10`.  The second component counts LLM completion calls; the outer
`except` turns an uncaught stage-3 error into a `success=False` response
(its `str(e)` suffix is elided). -/
def qaProcess (env : QARunEnv) : AgentResponse × Nat :=
  let candidates := stage2HybridSearch env.vec env.text 50
  if candidates.isEmpty then
    ({ text := "🤷 Не нашел релевантных заметок по вашему вопросу.",
       success := true, metadata := some { found_count := some 0 } }, 0)
  else
    match qaStage3RerankAndAnalyze env candidates 10 with
    | some r => r
    | none => ({ text := "❌ Ошибка при поиске ответа.", success := false }, 0)

/-! ## Research agent (`api/agents/research_agent.py`) -/

/-- A document loaded by `ResearchAgent._rerank_and_load`
(`path`, full `content`, `category`, `tags`). -/
structure RDoc where
  path : String
  content : String
  category : String
  tags : List String
deriving DecidableEq, Repr

/-- The loading loop of `_rerank_and_load`: for each of the first `top_k`
reranked indices, both the `candidates[idx]` lookup and the `get_document`
call sit inside one per-document `try`, so an out-of-range index or a load
failure just drops that document. -/
def researchLoad (getDoc : String → Option CouchDoc) (cands : List Candidate)
    (idxs : List Nat) (topK : Nat) : List RDoc :=
  (idxs.take topK).filterMap (fun i =>
    (cands[i]?).bind (fun c =>
      (getDoc c.note_id).map (fun d =>
        { path := c.note_id, content := d.data, category := c.category,
          tags := c.tags })))

/-- `ResearchAgent._rerank_and_load` = rerank (with its fallbacks) then load. -/
def researchRerankAndLoad (getDoc : String → Option CouchDoc) (cohere : Bool)
    (rerank : Option (List Nat)) (cands : List Candidate) (topK : Nat) :
    List RDoc :=
  researchLoad getDoc cands (researchRerankedIndices cohere rerank cands topK)
    topK

/-- Result text of one research pass: `response.strip()` on success, the
pass's fixed placeholder string when the completion call raised. -/
def passText (result : Option String) (placeholder : String) : String :=
  match result with
  | some s => pyStrip s
  | none => placeholder

/-- The per-source lines of `_format_research_report`: up to 10 sources, each
annotated with up to 3 tags when `doc.get('tags')` is truthy. -/
def researchSourceLines (sources : List RDoc) : String :=
  String.join ((sources.take 10).enum.map (fun p =>
    "\n" ++ toString (p.1 + 1) ++ ". `" ++ p.2.path ++ "`" ++
      (if p.2.tags ≠ [] then
        " [" ++ String.intercalate ", " (p.2.tags.take 3) ++ "]"
      else "")))

/-- `ResearchAgent._format_research_report`. -/
def formatResearchReport (topic overview connections synthesis : String)
    (sources : List RDoc) : String :=
  "🔍 **Исследование:** " ++ topic ++
  "\n\n📊 **ОБЗОР**\n" ++ overview ++
  "\n\n🔗 **СВЯЗИ И ПАТТЕРНЫ**\n" ++ connections ++
  "\n\n💡 **ВЫВОДЫ И ИНСАЙТЫ**\n" ++ synthesis ++
  "\n\n📚 **ИСТОЧНИКИ** (" ++ toString sources.length ++ " документов)\n" ++
  researchSourceLines sources

/-- External outcomes consumed by one `ResearchAgent.process` run; `pass1`,
`pass2`, `pass3` are the three synthesis completion calls (`none` = raised,
replaced by that pass's placeholder). -/
structure ResearchRunEnv where
  vec : Option (List VecHit)
  text : Option (List TextDoc)
  cohere : Bool
  rerank : Option (List Nat)
  getDoc : String → Option CouchDoc
  pass1 : Option String
  pass2 : Option String
  pass3 : Option String

/-- `ResearchAgent.process` for topic `message`: stage 2 with `limit=100`,
rerank-and-load with `top_k=30`, then the three synthesis passes and the
fixed-structure report.  The second component counts LLM completion calls
(each pass attempts exactly one; the context blocks built from document
subsets only feed those external calls). -/
def researchProcess (env : ResearchRunEnv) (message : String) :
    AgentResponse × Nat :=
  let candidates := stage2HybridSearch env.vec env.text 100
  if candidates.isEmpty then
    ({ text := "🔍 Не нашел достаточно материала для исследования этой темы.",
       success := true, metadata := some { found_count := some 0 } }, 0)
  else
    let topDocs := researchRerankAndLoad env.getDoc env.cohere env.rerank
      candidates 30
    if topDocs.isEmpty then
      ({ text := "🔍 Нашел заметки, но не смог их обработать.",
         success := true,
         metadata := some { found_count := some candidates.length } }, 0)
    else
      let overview := passText env.pass1 "Не удалось создать обзор."
      let connections := passText env.pass2 "Не удалось проанализировать связи."
      let synthesis := passText env.pass3 "Не удалось синтезировать выводы."
      let report := formatResearchReport message overview connections synthesis
        (topDocs.take 10)
      ({ text := report, success := true,
         metadata := some
           { documents_analyzed := some topDocs.length,
             sources := some ((topDocs.take 10).map (·.path)) } }, 3)

/-! ## Score-based selection (`MessageDirector.select_best_agent`) -/

/-- A registered agent as seen by `select_best_agent`: its name and the
outcome of its `can_handle` call (`none` = the call raised, which the
director catches and treats as score `0.0`). -/
structure ScoredAgent where
  name : String
  canHandle : Option ℚ
deriving DecidableEq, Repr

/-- The effective score entering the sort: `can_handle`'s value, or `0.0`
when the call raised. -/
def agentScore (a : ScoredAgent) : ℚ := a.canHandle.getD 0

/-- `MessageDirector.select_best_agent`: score every agent (exceptions →
`0.0`), stable-sort descending by score (Python's `list.sort` is stable and
`reverse=True` keeps equal-score agents in registration order, as does
`mergeSort` with `y.2 ≤ x.2`), return the head only if its score exceeds
the `0.3` floor. -/
def selectBestAgent (agents : List ScoredAgent) : Option ScoredAgent :=
  match agents with
  | [] => none
  | _ :: _ =>
    let scores := agents.map (fun a => (a, agentScore a))
    let sorted := scores.mergeSort (fun x y => decide (y.2 ≤ x.2))
    match sorted with
    | [] => none
    | (best, bestScore) :: _ => if bestScore > 3/10 then some best else none

/-! ## Background indexer (`api/indexer.py`) -/

/-- The `_stats` counters of `BackgroundIndexer` (`last_run` elided: it is a
timestamp never read by the logic). -/
structure IndexStats where
  total_notes : Nat
  indexed_notes : Nat
  pending_notes : Nat
  failed_notes : Nat
deriving DecidableEq, Repr

/-- A CouchDB note as consumed by the indexer: `_id` (possibly absent),
`path`, `data`, `ctime`, `mtime`. -/
structure Doc where
  idField : Option String
  path : String
  data : String
  ctime : Nat
  mtime : Nat
deriving DecidableEq, Repr

/-- `doc.get('_id') or doc.get('path', '')` for indexer notes. -/
def docId (d : Doc) : String :=
  match d.idField with
  | some s => if s = "" then d.path else s
  | none => d.path

/-- Metadata returned by `MetadataGenerator.extract_metadata` (which catches
its own failures and returns a default dict, so the call never raises). -/
structure NoteMetadata where
  tags : List String
  category : String
  summary : String
  keywords : List String
deriving DecidableEq, Repr

/-- External collaborators of one indexing run. `embedOf none` models
`llm.embed_text` raising; `upsertOk _ = false` models
`vector_store.upsert_note` raising. -/
structure IndexEnv where
  metaOf : String → NoteMetadata
  getDoc : String → Option CouchDoc
  embedOf : String → Option (List ℚ)
  upsertOk : String → Bool

/-- The skip test at the top of `_index_note`:
`not content or len(content.strip()) < 10`. -/
def noteSkipped (d : Doc) : Bool :=
  d.data = "" || pyLen (pyStrip d.data) < 10

/-- The text handed to `llm.embed_text`:
`f"{metadata.get('summary','')} {content}"[:8000]`. -/
def embedInput (metaOf : String → NoteMetadata) (content : String) : String :=
  pyTake ((metaOf content).summary ++ " " ++ content) 8000

/-- The external calls `_index_note` makes for one note. -/
inductive IndexEffect
  | extractMetadata
  | getDocument
  | embedText
  | upsertVector
deriving DecidableEq, Repr

/-- `BackgroundIndexer._index_note`.  Returns the updated stats (`.error ()`
when the note's embedding/upsert step raised and the exception propagates to
the caller) together with the external calls attempted.  Short/empty notes
return immediately.  The metadata extraction never raises; the CouchDB
re-read sits in its own `try` and the actual document update is skipped in
the source ("For now, skip to avoid conflicts"), so neither can fail the
note.  `indexed_notes` is incremented only after a successful upsert. -/
def indexNote (env : IndexEnv) (st : IndexStats) (doc : Doc) :
    Except Unit IndexStats × List IndexEffect :=
  if noteSkipped doc then (.ok st, [])
  else
    match env.embedOf (embedInput env.metaOf doc.data) with
    | none => (.error (), [.extractMetadata, .getDocument, .embedText])
    | some _ =>
      if env.upsertOk (docId doc) then
        (.ok { st with indexed_notes := st.indexed_notes + 1 },
         [.extractMetadata, .getDocument, .embedText, .upsertVector])
      else
        (.error (),
         [.extractMetadata, .getDocument, .embedText, .upsertVector])

/-- `BackgroundIndexer._process_batch`: each note is indexed inside its own
`try`; a failure increments `failed_notes` and the loop continues with the
next note. -/
def processBatch (env : IndexEnv) (st : IndexStats) (batch : List Doc) :
    IndexStats :=
  batch.foldl (fun s d =>
    match (indexNote env s d).1 with
    | .ok s' => s'
    | .error _ => { s with failed_notes := s.failed_notes + 1 }) st

/-- `'ai_indexed:' not in content` — the pending-note marker test. -/
def hasIndexedMarker (content : String) : Bool :=
  pyHasSubstr "ai_indexed:" content.data

/-- `BackgroundIndexer._find_pending_notes`.  `getAll` is the outcome of
`couchdb.get_all_documents(limit=500)` (`none` = raised: the surrounding
`try` returns `[]` with the stats untouched); `vecTotal` comes from
`vector_store.get_stats()`, which catches its own errors and so never
raises.  Pending notes are those without the marker, sorted oldest-first by
`ctime` (Python's stable sort) and capped at 50. -/
def findPendingNotes (getAll : Option (List Doc)) (vecTotal : Nat)
    (st : IndexStats) : IndexStats × List Doc :=
  match getAll with
  | none => (st, [])
  | some allDocs =>
    let st1 := { st with total_notes := allDocs.length }
    let st2 := { st1 with indexed_notes := vecTotal }
    let pending := allDocs.filter (fun d => !(hasIndexedMarker d.data))
    let st3 := { st2 with pending_notes := pending.length }
    (st3, (pending.mergeSort (fun a b => decide (a.ctime ≤ b.ctime))).take 50)

/-- The per-note loop of `reindex_all`: `_index_note` is called without a
per-note `try`, so the first failing note aborts the loop (`false`). -/
def runReindexNotes (env : IndexEnv) : IndexStats → List Doc →
    IndexStats × Bool
  | st, [] => (st, true)
  | st, d :: ds =>
    match (indexNote env st d).1 with
    | .ok st' => runReindexNotes env st' ds
    | .error _ => (st, false)

/-- `BackgroundIndexer.reindex_all`: rediscover pending notes, index each in
turn, and report `{'success': True, 'notes_processed': len(pending_notes)}`;
any per-note exception is caught by the single outer handler and reported as
`{'success': False, ...}` (modelled by `.error ()`). -/
def reindexAll (getAll : Option (List Doc)) (vecTotal : Nat) (env : IndexEnv)
    (st : IndexStats) : IndexStats × Except Unit Nat :=
  let found := findPendingNotes getAll vecTotal st
  match runReindexNotes env found.1 found.2 with
  | (st2, true) => (st2, .ok found.2.length)
  | (st2, false) => (st2, .error ())

/-- `pending_notes[i:i + batch_size]` chunking of `_indexing_loop`
(`for i in range(0, len(pending_notes), batch_size)`).  For `bs ≥ 1`,
`xs.drop (bs - 1) = (x :: xs).drop bs`, matching the slice step. -/
def toBatches (bs : Nat) : List Doc → List (List Doc)
  | [] => []
  | x :: xs => (x :: xs).take bs :: toBatches bs (xs.drop (bs - 1))
termination_by l => l.length
decreasing_by simp [List.length_drop]; omega

/-- Observable events of one scan iteration of `_indexing_loop`. -/
inductive ScanEvent
  | processBatch (size : Nat)
  | sleep (seconds : Nat)
deriving DecidableEq, Repr

/-- The event trace of one scan of `_indexing_loop` over a found pending
list (with `_running` held true): each batch is processed and then the
rate-limiting `asyncio.sleep(delay_seconds)` runs, including after the final
batch. -/
def indexerScanTrace (pending : List Doc) (batchSize delaySeconds : Nat) :
    List ScanEvent :=
  (toBatches batchSize pending).flatMap
    (fun b => [.processBatch b.length, .sleep delaySeconds])

/-! ## Claim theorems -/

/-- C1 (counterexample).  The claim "every message containing `?` … selects
the question path" fails: `_analyze_intent` checks the command marker first,
so the message `"/deploy?"` — which contains `?`, with the explicit-mode flag
unset and a Q&A agent registered — is classified `command` and dispatched to
the note taker, not to the Q&A agent. -/
theorem c1_counterexample :
    pyContainsChar "/deploy?" '?' = true ∧
    (route_message { research := false, qa := true, noteTaker := true } none
        false "/deploy?").target = RouteTarget.noteTaker ∧
    (route_message { research := false, qa := true, noteTaker := true } none
        false "/deploy?").target ≠ RouteTarget.qa := by
  decide

/-- C1 (amended).  For every message that does not start (after stripping)
with the command marker `/` and that contains `?` or starts with a recognized
interrogative word, `route_message` dispatches to the registered Q&A agent
whenever the explicit-mode flag is unset, deciding by the heuristic alone:
the intent classifier runs but its LLM fallback is never invoked. -/
theorem c1_heuristic_question_routes_to_qa (reg : Registry)
    (llmResponse : Option String) (message : String)
    (hcmd : pyStartsWith (pyStrip message) "/" = false)
    (hq : directorIsQuestionHeuristic message = true)
    (hqa : reg.qa = true) :
    route_message reg llmResponse false message =
      { target := .qa, classified := true, usedLLM := false } := by
  simp [route_message, analyzeIntent, heuristicIntent, hcmd, hq, hqa]

/-- C1 (witness): the amended theorem applied at the message
`"what is the deployment process?"`. -/
theorem c1_witness :
    route_message { research := false, qa := true, noteTaker := true } none
      false "what is the deployment process?" =
      { target := .qa, classified := true, usedLLM := false } :=
  c1_heuristic_question_routes_to_qa _ _ _ (by decide) (by decide) (by decide)

/-- C2.  Whenever the context's `awaiting_research` flag is set and the
research agent is registered, `route_message` dispatches to it for every
message and every LLM-classifier outcome: the intent classifier is never
invoked (`classified = false`), hence no confidence scoring and no LLM call
happen. -/
theorem c2_sticky_research_mode (reg : Registry) (llmResponse : Option String)
    (message : String) (hres : reg.research = true) :
    route_message reg llmResponse true message =
      { target := .research, classified := false, usedLLM := false } := by
  simp [route_message, hres]

/-- C2 (witness): sticky mode at the non-question message `"buy milk"` with
an LLM classifier that would have answered `note`. -/
theorem c2_witness :
    route_message { research := true, qa := true, noteTaker := true }
      (some "note") true "buy milk" =
      { target := .research, classified := false, usedLLM := false } :=
  c2_sticky_research_mode _ _ _ rfl

/-- Input of the C3 counterexample: 30 vector hits with distinct ids. -/
def c3VecHits : List VecHit :=
  (List.range 30).map (fun i =>
    { note_id := "v" ++ toString i, score := 1/2, category := "", tags := [],
      keywords := [], summary := "s", mtime := 0 })

/-- Input of the C3 counterexample: 30 full-text hits with distinct ids. -/
def c3TextDocs : List TextDoc :=
  (List.range 30).map (fun i =>
    { idField := some ("t" ++ toString i), path := "", data := "" })

/-- C3 (counterexample).  The research path calls `_stage2_hybrid_search`
with `limit=100` (`research_agent.py`, "More candidates for research"), so
the `[:limit]` truncation does not enforce 50: with 30 vector hits and 30
distinct full-text hits the stage returns 60 candidates. -/
theorem c3_counterexample :
    (stage2HybridSearch (some c3VecHits) (some c3TextDocs) 100).length = 60 ∧
    ¬ (stage2HybridSearch (some c3VecHits) (some c3TextDocs) 100).length ≤ 50 := by
  decide

/-- Size of one sub-search outcome (0 when the call raised). -/
def subSearchSize {α : Type} (o : Option (List α)) : Nat := (o.getD []).length

/-- C3 (amended).  Stage 2 never returns more candidates than the limit its
caller passes (50 on the question path), and — since both sub-searches are
requested with sub-limit 30 — never more than 60 on any path; the research
path's `limit=100` therefore bounds its result at 60, not 50. -/
theorem c3_stage2_size_bound (vecResults : Option (List VecHit))
    (textResults : Option (List TextDoc)) (limit : Nat)
    (hv : subSearchSize vecResults ≤ 30)
    (ht : subSearchSize textResults ≤ 30) :
    (stage2HybridSearch vecResults textResults limit).length ≤ limit ∧
    (stage2HybridSearch vecResults textResults limit).length ≤ 60 := by
  refine ⟨?_, ?_⟩
  · unfold stage2HybridSearch
    exact List.length_take_le _ _
  · rcases vecResults with _ | vs <;> rcases textResults with _ | ts <;>
      simp only [subSearchSize, Option.getD_none, Option.getD_some] at hv ht <;>
      simp only [stage2HybridSearch, List.length_take, List.nil_append,
        List.length_nil, List.length_append, List.length_map]
    · omega
    · refine le_trans (Nat.min_le_right _ _) ?_
      exact le_trans (List.length_filterMap_le _ _) (by omega)
    · omega
    · refine le_trans (Nat.min_le_right _ _) ?_
      exact le_trans
        (Nat.add_le_add hv (le_trans (List.length_filterMap_le _ _) ht))
        (by norm_num)

/-- C3 (witness): the amended bound applied to one vector hit and one
full-text hit with `limit = 50`. -/
theorem c3_witness :
    (stage2HybridSearch
      (some [{ note_id := "a", score := 9/10, category := "", tags := [],
               keywords := [], summary := "", mtime := 0 }])
      (some [{ idField := some "b", path := "", data := "" }]) 50).length ≤ 50 :=
  (c3_stage2_size_bound _ _ 50 (by decide) (by decide)).1

/-- Both sub-searches succeeding unfolds stage 2 to merge-then-truncate. -/
lemma stage2_some_some (vs : List VecHit) (ts : List TextDoc) (limit : Nat) :
    stage2HybridSearch (some vs) (some ts) limit =
      (vs.map vecCandidate ++ ts.filterMap (fun d =>
        if textDocId d ∈ (vs.map vecCandidate).map Candidate.note_id then none
        else some (textCandidate d))).take limit := rfl

/-- The ids of the vector-sourced candidates are the vector hits' ids. -/
lemma vecCands_map_id (vs : List VecHit) :
    (vs.map vecCandidate).map Candidate.note_id = vs.map VecHit.note_id := by
  rw [List.map_map]; rfl

/-- The ids kept by the dedup filter are the full-text ids outside
`existing_ids`. -/
lemma textKeep_map_id (existingIds : List String) (ts : List TextDoc) :
    (ts.filterMap (fun d =>
      if textDocId d ∈ existingIds then none
      else some (textCandidate d))).map Candidate.note_id =
    (ts.map textDocId).filter (fun i => decide (i ∉ existingIds)) := by
  induction ts with
  | nil => simp
  | cons d ds ih =>
    rw [List.filterMap_cons, List.map_cons, List.filter_cons]
    by_cases h : textDocId d ∈ existingIds
    · have hd : decide (textDocId d ∉ existingIds) = false := by simpa using h
      rw [if_pos h, hd]
      simpa using ih
    · have hd : decide (textDocId d ∉ existingIds) = true := by simpa using h
      rw [if_neg h, hd]
      simp only [List.map_cons, if_true, ih]
      rfl

/-- Every candidate kept by the dedup filter has an id outside
`existing_ids`. -/
lemma textKeep_id_not_mem (existingIds : List String) (ts : List TextDoc) :
    ∀ c ∈ ts.filterMap (fun d =>
      if textDocId d ∈ existingIds then none
      else some (textCandidate d)), c.note_id ∉ existingIds := by
  intro c hc
  have hcid : c.note_id ∈ (ts.filterMap (fun d =>
      if textDocId d ∈ existingIds then none
      else some (textCandidate d))).map Candidate.note_id :=
    List.mem_map_of_mem _ hc
  rw [textKeep_map_id] at hcid
  simpa using List.of_mem_filter hcid

/-- C4 (counterexample).  The dedup set `existing_ids` is computed once,
before the full-text loop, so two full-text hits sharing a document
identifier both enter the merged list: identifier uniqueness fails within
one pipeline run. -/
theorem c4_counterexample :
    ((stage2HybridSearch (some [])
        (some [{ idField := some "A", path := "A.md", data := "dup" },
               { idField := some "A", path := "A.md", data := "dup" }])
        50).map Candidate.note_id = ["A", "A"]) ∧
    ¬ ((stage2HybridSearch (some [])
        (some [{ idField := some "A", path := "A.md", data := "dup" },
               { idField := some "A", path := "A.md", data := "dup" }])
        50).map Candidate.note_id).Nodup := by
  decide

/-- C4 (amended).  Provided each sub-search's own results carry pairwise
distinct identifiers (the code only deduplicates full-text hits against
vector hits, never within one sub-search) and the vector hits fit within the
truncation limit (they do: sub-limit 30 ≤ limit 50), every identifier occurs
at most once in the merged candidate list, and for every vector hit the
merged list contains exactly one entry with its identifier, carrying
`search_source = "vector"` and the vector-sourced score. -/
theorem c4_merge_vector_wins (vs : List VecHit) (ts : List TextDoc)
    (limit : Nat)
    (hvnd : (vs.map VecHit.note_id).Nodup)
    (htnd : (ts.map textDocId).Nodup)
    (hlen : vs.length ≤ limit) :
    ((stage2HybridSearch (some vs) (some ts) limit).map
        Candidate.note_id).Nodup ∧
    ∀ v ∈ vs,
      (stage2HybridSearch (some vs) (some ts) limit).countP
          (fun c => c.note_id == v.note_id) = 1 ∧
      ∀ c ∈ stage2HybridSearch (some vs) (some ts) limit,
        c.note_id = v.note_id →
          c.search_source = "vector" ∧ c.search_score = v.score := by
  rw [stage2_some_some]
  set eIds := (vs.map vecCandidate).map Candidate.note_id with heIds
  set kept := ts.filterMap (fun d =>
    if textDocId d ∈ eIds then none else some (textCandidate d)) with hkept
  have heIds' : eIds = vs.map VecHit.note_id := vecCands_map_id vs
  have hvclen : (vs.map vecCandidate).length = vs.length := List.length_map _ _
  have hkept_not : ∀ c ∈ kept, c.note_id ∉ eIds := textKeep_id_not_mem eIds ts
  have hnd : ((vs.map vecCandidate ++ kept).map Candidate.note_id).Nodup := by
    rw [List.map_append]
    refine List.Nodup.append ?_ ?_ ?_
    · rw [← heIds, heIds']; exact hvnd
    · rw [hkept, textKeep_map_id]
      exact htnd.filter _
    · intro x hx hk
      rcases List.mem_map.mp hk with ⟨c, hc, rfl⟩
      exact hkept_not c hc (by rwa [heIds])
  have hsplit : (vs.map vecCandidate ++ kept).take limit =
      vs.map vecCandidate ++ kept.take (limit - (vs.map vecCandidate).length) := by
    rw [List.take_append_eq_append_take,
      List.take_of_length_le (by omega : (vs.map vecCandidate).length ≤ limit)]
  constructor
  · rw [List.map_take]
    exact List.Nodup.sublist (List.take_sublist _ _) hnd
  · intro v hv
    have hvid_mem : v.note_id ∈ eIds := by
      rw [heIds']; exact List.mem_map_of_mem _ hv
    have hcountv : (vs.map vecCandidate).countP
        (fun c => c.note_id == v.note_id) = 1 := by
      rw [List.countP_map]
      have hcnt : vs.countP
          ((fun c : Candidate => c.note_id == v.note_id) ∘ vecCandidate) =
          (vs.map VecHit.note_id).count v.note_id := by
        rw [List.count_eq_countP, List.countP_map]; rfl
      rw [hcnt]
      exact List.count_eq_one_of_mem hvnd (List.mem_map_of_mem _ hv)
    have hcountk : kept.countP (fun c => c.note_id == v.note_id) = 0 := by
      rw [List.countP_eq_zero]
      intro c hc hbeq
      exact hkept_not c hc (by rwa [show c.note_id = v.note_id by
        simpa using hbeq])
    constructor
    · rw [hsplit, List.countP_append, hcountv]
      have : (kept.take (limit - (vs.map vecCandidate).length)).countP
          (fun c => c.note_id == v.note_id) = 0 :=
        Nat.le_zero.mp (hcountk ▸ (List.take_sublist _ _).countP_le _)
      omega
    · intro c hc hceq
      rw [hsplit] at hc
      rcases List.mem_append.mp hc with hcv | hck
      · rcases List.mem_map.mp hcv with ⟨w, hw, rfl⟩
        have hwv : w = v := List.inj_on_of_nodup_map hvnd hw hv
          (by simpa [vecCandidate] using hceq)
        subst hwv
        exact ⟨rfl, rfl⟩
      · exact absurd (hceq ▸ hvid_mem)
          (hkept_not c (List.mem_of_mem_take hck))

/-- C4 (witness): one vector hit `"A"` and full-text hits `"A"`, `"B"`; the
merged list contains exactly one `"A"` entry. -/
theorem c4_witness :
    (stage2HybridSearch
      (some [{ note_id := "A", score := 9/10, category := "", tags := [],
               keywords := [], summary := "", mtime := 0 }])
      (some [{ idField := some "A", path := "", data := "" },
             { idField := some "B", path := "", data := "" }]) 50).countP
        (fun c => c.note_id == "A") = 1 := by
  have h := c4_merge_vector_wins
    [{ note_id := "A", score := 9/10, category := "", tags := [],
       keywords := [], summary := "", mtime := 0 }]
    [{ idField := some "A", path := "", data := "" },
     { idField := some "B", path := "", data := "" }]
    50 (by decide) (by decide) (by decide)
  exact (h.2 ⟨"A", 9/10, "", [], [], "", 0⟩ (List.mem_cons_self _ _)).1

/-- Indexing the first `n` positions of a list collects its first `n`
elements (no index raises when `n ≤ length`). -/
lemma range_mapM_getElem (l : List Candidate) :
    ∀ n, n ≤ l.length →
      (List.range n).mapM (fun i => l[i]?) = some (l.take n) := by
  intro n
  induction n with
  | zero => intro _; rfl
  | succ n ih =>
    intro h
    have hn : n < l.length := h
    rw [List.range_succ, List.mapM_append, ih (Nat.le_of_lt hn),
      List.mapM_cons, List.mapM_nil, List.take_succ,
      List.getElem?_eq_getElem hn]
    rfl

/-- Same statement for the research loader's per-index `filterMap`. -/
lemma range_filterMap_getElem {β : Type} (l : List Candidate)
    (g : Candidate → Option β) :
    ∀ n, n ≤ l.length →
      (List.range n).filterMap (fun i => (l[i]?).bind g) =
        (l.take n).filterMap g := by
  intro n
  induction n with
  | zero => intro _; rfl
  | succ n ih =>
    intro h
    have hn : n < l.length := h
    rw [List.range_succ, List.filterMap_append, ih (Nat.le_of_lt hn),
      List.take_succ, List.filterMap_append, List.filterMap_cons,
      List.getElem?_eq_getElem hn]
    simp only [Option.toList_some, List.filterMap_cons, List.filterMap_nil,
      Option.some_bind]

/-- Under reranker unavailability/failure the Q&A index list is the
first-`min topK len` range. -/
lemma qaRerankedIndices_fallback (cands : List Candidate) (topK : Nat)
    (cohere : Bool) (rerank : Option (List Nat))
    (h : cohere = false ∨ rerank = none) :
    qaRerankedIndices cohere rerank cands topK =
      List.range (min topK cands.length) := by
  rcases h with rfl | rfl
  · simp [qaRerankedIndices]
  · unfold qaRerankedIndices
    split <;> rfl

/-- Under reranker unavailability/failure the research index list, cut to
`topK`, is the first-`min topK len` range. -/
lemma researchRerankedIndices_fallback (cands : List Candidate) (topK : Nat)
    (cohere : Bool) (rerank : Option (List Nat))
    (h : cohere = false ∨ rerank = none) :
    (researchRerankedIndices cohere rerank cands topK).take topK =
      List.range (min topK cands.length) := by
  have : researchRerankedIndices cohere rerank cands topK =
      List.range (min topK cands.length) ∨
      researchRerankedIndices cohere rerank cands topK =
      List.range cands.length := by
    rcases h with rfl | rfl
    · right; simp [researchRerankedIndices]
    · unfold researchRerankedIndices
      split
      · left; rfl
      · right; rfl
  rcases this with h1 | h1 <;> rw [h1, List.take_range]
  · exact congrArg List.range (by omega)

/-- C5.  On both the question path and the research path, when the Cohere
client is absent or the rerank call fails, stage 3 selects exactly the first
`top_k` candidates in their stage-2 order (no index error: the computation
returns `some …`), and the number of retained, content-loaded documents
never exceeds `min top_k (number of candidates)`. -/
theorem c5_rerank_fallback_first_k (cands : List Candidate) (topK : Nat)
    (cohere : Bool) (rerank : Option (List Nat))
    (getDoc : String → Option CouchDoc)
    (h : cohere = false ∨ rerank = none) :
    qaTopCandidates (qaRerankedIndices cohere rerank cands topK) cands topK =
      some (cands.take topK) ∧
    researchRerankAndLoad getDoc cohere rerank cands topK =
      (cands.take topK).filterMap (fun c =>
        (getDoc c.note_id).map (fun d =>
          { path := c.note_id, content := d.data, category := c.category,
            tags := c.tags })) ∧
    (researchRerankAndLoad getDoc cohere rerank cands topK).length ≤
      min topK cands.length ∧
    (qaLoadContext getDoc (cands.take topK)).length ≤ min topK cands.length := by
  have htake : cands.take (min topK cands.length) = cands.take topK := by
    rw [List.take_eq_take]
    simp [Nat.min_assoc]
  have hqa : qaTopCandidates (qaRerankedIndices cohere rerank cands topK)
      cands topK = some (cands.take topK) := by
    rw [qaRerankedIndices_fallback cands topK cohere rerank h]
    unfold qaTopCandidates
    rw [List.take_range, show min topK (min topK cands.length) =
        min topK cands.length from by omega,
      range_mapM_getElem cands _ (Nat.min_le_right _ _), htake]
  have hres : researchRerankAndLoad getDoc cohere rerank cands topK =
      (cands.take topK).filterMap (fun c =>
        (getDoc c.note_id).map (fun d =>
          { path := c.note_id, content := d.data, category := c.category,
            tags := c.tags })) := by
    unfold researchRerankAndLoad researchLoad
    rw [researchRerankedIndices_fallback cands topK cohere rerank h,
      range_filterMap_getElem cands _ _ (Nat.min_le_right _ _), htake]
  refine ⟨hqa, hres, ?_, ?_⟩
  · rw [hres]
    calc ((cands.take topK).filterMap _).length
        ≤ (cands.take topK).length := List.length_filterMap_le _ _
      _ = min topK cands.length := List.length_take _ _
  · calc (qaLoadContext getDoc (cands.take topK)).length
        ≤ (cands.take topK).length := List.length_filterMap_le _ _
      _ = min topK cands.length := List.length_take _ _

/-- C5 (witness): two candidates, `top_k = 5`, no Cohere client: the first
two candidates are selected in order. -/
theorem c5_witness :
    qaTopCandidates
      (qaRerankedIndices false none
        [⟨"a", "vector", 1/2, "", "", []⟩, ⟨"b", "fulltext", 7/10, "", "", []⟩]
        5)
      [⟨"a", "vector", 1/2, "", "", []⟩, ⟨"b", "fulltext", 7/10, "", "", []⟩]
      5 =
    some [⟨"a", "vector", 1/2, "", "", []⟩, ⟨"b", "fulltext", 7/10, "", "", []⟩] :=
  (c5_rerank_fallback_first_k _ 5 false none (fun _ => none)
    (Or.inl rfl)).1

/-- C6.  For every run (question or research path) in which stage 2 produces
zero candidates, `process` returns `success = true`, the "nothing found" /
insufficient-material text, and `found_count = 0`; the completion-call
counter is 0, so no synthesis pass (and no completion at all) is invoked. -/
theorem c6_empty_stage2 (qenv : QARunEnv) (renv : ResearchRunEnv)
    (message : String)
    (hq : stage2HybridSearch qenv.vec qenv.text 50 = [])
    (hr : stage2HybridSearch renv.vec renv.text 100 = []) :
    qaProcess qenv =
      ({ text := "🤷 Не нашел релевантных заметок по вашему вопросу.",
         success := true, metadata := some { found_count := some 0 } }, 0) ∧
    researchProcess renv message =
      ({ text := "🔍 Не нашел достаточно материала для исследования этой темы.",
         success := true, metadata := some { found_count := some 0 } }, 0) := by
  constructor
  · simp [qaProcess, hq]
  · simp [researchProcess, hr]

/-- C6 (witness): both sub-searches raising (hence zero candidates) on both
paths. -/
theorem c6_witness :
    qaProcess ⟨none, none, false, none, fun _ => none, none⟩ =
      ({ text := "🤷 Не нашел релевантных заметок по вашему вопросу.",
         success := true, metadata := some { found_count := some 0 } }, 0) ∧
    researchProcess ⟨none, none, false, none, fun _ => none, none, none, none⟩
        "graph databases" =
      ({ text := "🔍 Не нашел достаточно материала для исследования этой темы.",
         success := true, metadata := some { found_count := some 0 } }, 0) :=
  c6_empty_stage2 _ _ "graph databases" rfl rfl

/-- Every pair entering the director's sort is an agent with its effective
score. -/
lemma selectBest_pair_snd (agents : List ScoredAgent) :
    ∀ p ∈ agents.map (fun a => (a, agentScore a)), p.2 = agentScore p.1 := by
  intro p hp
  rcases List.mem_map.mp hp with ⟨w, _, rfl⟩
  rfl

/-- C7.  `select_best_agent` never returns an agent whose effective score is
`≤ 0.3`; with no agents registered it returns `none`; and because a raising
`can_handle` is caught and scored `0.0` (`agentScore`), the presence of
failing agents never aborts selection: whenever any agent's effective score
exceeds `0.3`, an agent is selected. -/
theorem c7_select_best (agents : List ScoredAgent) :
    (∀ a, selectBestAgent agents = some a → 3/10 < agentScore a) ∧
    selectBestAgent [] = none ∧
    ((∃ a ∈ agents, 3/10 < agentScore a) →
      (selectBestAgent agents).isSome = true) := by
  have htrans : ∀ (a b c : ScoredAgent × ℚ),
      (fun x y => decide (y.2 ≤ x.2)) a b → (fun x y => decide (y.2 ≤ x.2)) b c →
      (fun x y => decide (y.2 ≤ x.2)) a c := by
    intro a b c hab hbc
    simp only [decide_eq_true_eq] at *
    exact le_trans hbc hab
  have htotal : ∀ (a b : ScoredAgent × ℚ),
      ((fun x y => decide (y.2 ≤ x.2)) a b ||
        (fun x y => decide (y.2 ≤ x.2)) b a) = true := by
    intro a b
    simp only [Bool.or_eq_true, decide_eq_true_eq]
    exact le_total b.2 a.2
  refine ⟨?_, rfl, ?_⟩
  · intro a ha
    cases agents with
    | nil => simp [selectBestAgent] at ha
    | cons a0 rest =>
      simp only [selectBestAgent] at ha
      rcases hs : ((a0 :: rest).map (fun a => (a, agentScore a))).mergeSort
          (fun x y => decide (y.2 ≤ x.2)) with _ | ⟨⟨best, s⟩, tail⟩
      · rw [hs] at ha
        exact absurd ha (by simp)
      · rw [hs] at ha
        dsimp only at ha
        have hmem : (best, s) ∈ ((a0 :: rest).map
            (fun a => (a, agentScore a))).mergeSort
            (fun x y => decide (y.2 ≤ x.2)) := by
          rw [hs]; exact List.mem_cons_self _ _
        rw [List.mem_mergeSort] at hmem
        have hsnd := selectBest_pair_snd (a0 :: rest) _ hmem
        split_ifs at ha with hcond
        cases ha
        simpa [← hsnd] using hcond
  · rintro ⟨a, hmem_a, hscore⟩
    cases agents with
    | nil => cases hmem_a
    | cons a0 rest =>
      simp only [selectBestAgent]
      rcases hs : ((a0 :: rest).map (fun a => (a, agentScore a))).mergeSort
          (fun x y => decide (y.2 ≤ x.2)) with _ | ⟨⟨best, s⟩, tail⟩
      · have := congrArg List.length hs
        simp at this
      · have hsorted := List.sorted_mergeSort htrans htotal
          ((a0 :: rest).map (fun a => (a, agentScore a)))
        rw [hs] at hsorted
        have hmem : (a, agentScore a) ∈ ((a0 :: rest).map
            (fun a => (a, agentScore a))).mergeSort
            (fun x y => decide (y.2 ≤ x.2)) :=
          List.mem_mergeSort.mpr (List.mem_map_of_mem _ hmem_a)
        rw [hs] at hmem
        have hsle : 3/10 < s := by
          rcases List.mem_cons.mp hmem with heq | htail
          · have : agentScore a = s := congrArg Prod.snd heq
            rwa [this] at hscore
          · have hpw := (List.pairwise_cons.mp hsorted).1 _ htail
            simp only [decide_eq_true_eq] at hpw
            exact lt_of_lt_of_le hscore hpw
        dsimp only
        rw [if_pos hsle]
        rfl

/-- C7 (witness): one agent whose `can_handle` raised plus one scoring
`0.8`; selection still succeeds. -/
theorem c7_witness :
    (selectBestAgent [⟨"broken", none⟩, ⟨"qa", some (8/10)⟩]).isSome = true :=
  (c7_select_best [⟨"broken", none⟩, ⟨"qa", some (8/10)⟩]).2.2
    ⟨⟨"qa", some (8/10)⟩, List.mem_cons_of_mem _ (List.mem_cons_self _ _),
      by norm_num [agentScore]⟩

/-- Whether `_index_note` raises for this note (an embed or upsert failure
on a non-skipped note); derived from the same branching as `indexNote`. -/
def noteFailed (env : IndexEnv) (d : Doc) : Bool :=
  if noteSkipped d then false
  else
    match env.embedOf (embedInput env.metaOf d.data) with
    | none => true
    | some _ => !env.upsertOk (docId d)

/-- Whether `_index_note` increments `indexed_notes` for this note. -/
def noteIndexed (env : IndexEnv) (d : Doc) : Bool :=
  !noteSkipped d && !noteFailed env d

/-- Branch characterization of `indexNote`'s returned state. -/
lemma indexNote_fst (env : IndexEnv) (st : IndexStats) (d : Doc) :
    (indexNote env st d).1 =
      if noteSkipped d then .ok st
      else if noteFailed env d then .error ()
      else .ok { st with indexed_notes := st.indexed_notes + 1 } := by
  unfold indexNote noteFailed
  by_cases hs : noteSkipped d
  · simp [hs]
  · cases henv : env.embedOf (embedInput env.metaOf d.data) with
    | none => simp [hs, henv]
    | some v =>
      by_cases hu : env.upsertOk (docId d) <;> simp [hs, henv, hu]

/-- One step of `_process_batch`'s loop. -/
lemma processBatch_cons (env : IndexEnv) (st : IndexStats) (d : Doc)
    (ds : List Doc) :
    processBatch env st (d :: ds) =
      processBatch env
        (match (indexNote env st d).1 with
          | .ok s' => s'
          | .error _ => { st with failed_notes := st.failed_notes + 1 }) ds :=
  rfl

/-- The exact effect of `_process_batch` on the counters: every failing note
adds one to `failed_notes`, every fully indexed note adds one to
`indexed_notes`, and the other counters are untouched — in particular the
loop visits every note of the batch regardless of earlier failures. -/
lemma processBatch_stats (env : IndexEnv) (batch : List Doc) :
    ∀ st : IndexStats,
      processBatch env st batch =
        { st with
          failed_notes := st.failed_notes + batch.countP (noteFailed env),
          indexed_notes := st.indexed_notes + batch.countP (noteIndexed env) } := by
  induction batch with
  | nil => intro st; simp [processBatch]
  | cons d ds ih =>
    intro st
    rw [processBatch_cons, indexNote_fst]
    by_cases hs : noteSkipped d
    · rw [if_pos hs, ih]
      have hf : noteFailed env d = false := by simp [noteFailed, hs]
      have hi : noteIndexed env d = false := by simp [noteIndexed, hs]
      simp [List.countP_cons, hf, hi]
    · rw [if_neg hs]
      by_cases hfail : noteFailed env d
      · have hi : noteIndexed env d = false := by simp [noteIndexed, hfail]
        rw [if_pos hfail, ih]
        simp [List.countP_cons, hfail, hi, IndexStats.mk.injEq]
        omega
      · have hi : noteIndexed env d = true := by
          simp [noteIndexed, hs, hfail]
        rw [if_neg hfail, ih]
        simp [List.countP_cons, hfail, hi, IndexStats.mk.injEq]
        omega

/-- If no pending note raises, `reindex_all`'s per-note loop completes. -/
lemma runReindexNotes_ok (env : IndexEnv) (ds : List Doc)
    (h : ∀ d ∈ ds, noteFailed env d = false) :
    ∀ st : IndexStats, (runReindexNotes env st ds).2 = true := by
  induction ds with
  | nil => intro st; rfl
  | cons d rest ih =>
    intro st
    have hd : noteFailed env d = false := h d (List.mem_cons_self _ _)
    rw [runReindexNotes, indexNote_fst]
    by_cases hs : noteSkipped d
    · rw [if_pos hs]
      exact ih (fun x hx => h x (List.mem_cons_of_mem _ hx)) st
    · rw [if_neg hs, hd, if_neg (by simp)]
      exact ih (fun x hx => h x (List.mem_cons_of_mem _ hx)) _

/-- C8.  A failure while indexing one document is isolated to that document:
`_process_batch` increments `failed_notes` once per failing note and still
visits every other note of the batch (and leaves `total_notes` and
`pending_notes` untouched); and `reindex_all` reuses the same
discover-then-`_index_note` logic and, whenever no note raises, returns
`notes_processed` equal to the number of discovered pending documents. -/
theorem c8_failure_isolation_and_reindex (env : IndexEnv) (st : IndexStats)
    (batch : List Doc) (getAll : Option (List Doc)) (vecTotal : Nat) :
    (processBatch env st batch).failed_notes =
      st.failed_notes + batch.countP (noteFailed env) ∧
    (processBatch env st batch).indexed_notes =
      st.indexed_notes + batch.countP (noteIndexed env) ∧
    (processBatch env st batch).total_notes = st.total_notes ∧
    (processBatch env st batch).pending_notes = st.pending_notes ∧
    ((∀ d ∈ (findPendingNotes getAll vecTotal st).2, noteFailed env d = false) →
      (reindexAll getAll vecTotal env st).2 =
        .ok (findPendingNotes getAll vecTotal st).2.length) := by
  refine ⟨?_, ?_, ?_, ?_, ?_⟩
  · rw [processBatch_stats]
  · rw [processBatch_stats]
  · rw [processBatch_stats]
  · rw [processBatch_stats]
  · intro h
    unfold reindexAll
    have hrun := runReindexNotes_ok env _ h
      (findPendingNotes getAll vecTotal st).1
    rcases hr : runReindexNotes env (findPendingNotes getAll vecTotal st).1
        (findPendingNotes getAll vecTotal st).2 with ⟨st2, b⟩
    rw [hr] at hrun
    cases b
    · simp at hrun
    · simp only [hr]

/-- C8 (witness): a batch of one failing note (embedding raises) yields
`failed_notes = 1`; a reindex whose only pending note succeeds (here: is
skipped as too short) reports one processed note. -/
theorem c8_witness :
    (processBatch
        ⟨fun _ => ⟨[], "Inbox", "", []⟩, fun _ => none, fun _ => none,
         fun _ => true⟩
        ⟨0, 0, 0, 0⟩
        [⟨some "n1", "Inbox/n1", "some long enough content", 0, 0⟩]).failed_notes
      = 1 ∧
    (reindexAll (some [⟨some "n2", "Inbox/n2", "short", 0, 0⟩]) 0
        ⟨fun _ => ⟨[], "Inbox", "", []⟩, fun _ => none, fun _ => none,
         fun _ => true⟩
        ⟨0, 0, 0, 0⟩).2 = Except.ok 1 := by
  have h := c8_failure_isolation_and_reindex
    ⟨fun _ => ⟨[], "Inbox", "", []⟩, fun _ => none, fun _ => none,
     fun _ => true⟩
    ⟨0, 0, 0, 0⟩
    [⟨some "n1", "Inbox/n1", "some long enough content", 0, 0⟩]
    (some [⟨some "n2", "Inbox/n2", "short", 0, 0⟩]) 0
  have hfp : (findPendingNotes (some [⟨some "n2", "Inbox/n2", "short", 0, 0⟩])
      0 ⟨0, 0, 0, 0⟩).2 = [⟨some "n2", "Inbox/n2", "short", 0, 0⟩] := by
    simp only [findPendingNotes]
    rw [show ([(⟨some "n2", "Inbox/n2", "short", 0, 0⟩ : Doc)].filter
      (fun d => !(hasIndexedMarker d.data))) =
      [⟨some "n2", "Inbox/n2", "short", 0, 0⟩] from by decide]
    simp
  constructor
  · rw [h.1]; decide
  · refine (h.2.2.2.2 ?_).trans ?_
    · intro d hd
      rw [hfp] at hd
      rcases List.mem_singleton.mp hd with rfl
      decide
    · rw [hfp]
      rfl

/-- Concatenating the batches gives back the pending list: every discovered
pending document is processed, in order. -/
lemma toBatches_flatten_aux (bs : Nat) :
    ∀ n (l : List Doc), l.length = n → (toBatches (bs + 1) l).flatten = l := by
  intro n
  induction n using Nat.strong_induction_on with
  | _ n ih =>
    intro l hlen
    cases l with
    | nil => simp [toBatches]
    | cons x xs =>
      rw [toBatches, List.flatten_cons]
      have hlt : (xs.drop (bs + 1 - 1)).length < n := by
        subst hlen; simp [List.length_drop]; omega
      rw [ih _ hlt _ rfl]
      rw [show bs + 1 - 1 = bs from rfl, List.take_succ_cons,
        List.cons_append, List.take_append_drop]

/-- Every batch is nonempty and no larger than the batch size. -/
lemma toBatches_sizes_aux (bs : Nat) :
    ∀ n (l : List Doc), l.length = n →
      ∀ b ∈ toBatches (bs + 1) l, b ≠ [] ∧ b.length ≤ bs + 1 := by
  intro n
  induction n using Nat.strong_induction_on with
  | _ n ih =>
    intro l hlen b hb
    cases l with
    | nil => simp [toBatches] at hb
    | cons x xs =>
      rw [toBatches] at hb
      rcases List.mem_cons.mp hb with rfl | htail
      · rw [List.take_succ_cons]
        exact ⟨by simp, by simp [List.length_take]⟩
      · have hlt : (xs.drop (bs + 1 - 1)).length < n := by
          subst hlen; simp [List.length_drop]; omega
        exact ih _ hlt _ rfl b htail

/-- C9.  One scan of `_indexing_loop` processes the found pending documents
in order, in batches of 5 (each batch nonempty, none larger than 5), with
the 12-second rate-limit sleep after each batch — hence between consecutive
batches; in particular a scan of 7 pending documents runs exactly two
batches, of sizes 5 then 2, in that order. -/
theorem c9_fixed_batches (pending : List Doc) :
    (toBatches 5 pending).flatten = pending ∧
    (∀ b ∈ toBatches 5 pending, b ≠ [] ∧ b.length ≤ 5) ∧
    (pending.length = 7 →
      indexerScanTrace pending 5 12 =
        [.processBatch 5, .sleep 12, .processBatch 2, .sleep 12]) := by
  refine ⟨toBatches_flatten_aux 4 _ pending rfl,
    toBatches_sizes_aux 4 _ pending rfl, ?_⟩
  intro h7
  rcases pending with _ | ⟨a, _ | ⟨b, _ | ⟨c, _ | ⟨d, _ | ⟨e, _ |
    ⟨f, _ | ⟨g, _ | ⟨x, t⟩⟩⟩⟩⟩⟩⟩⟩ <;> simp at h7
  simp [indexerScanTrace, toBatches]

/-- C9 (witness): the trace for a concrete 7-document pending list. -/
theorem c9_witness :
    indexerScanTrace (List.replicate 7 ⟨some "n", "Inbox/n", "x", 0, 0⟩) 5 12 =
      [.processBatch 5, .sleep 12, .processBatch 2, .sleep 12] :=
  (c9_fixed_batches _).2.2 (by simp)

/-- C10.  A note with empty content, or whose stripped content is shorter
than 10 characters, is skipped by `_index_note`: no metadata extraction, no
embedding, no vector upsert (the effect list is empty) and no counter change
(the stats are returned unmodified, so neither `failed_notes` nor
`indexed_notes` moves).  Yet `reindex_all` counts such a note in the
`notes_processed` figure it returns: a discovery consisting of exactly this
note reports one processed note. -/
theorem c10_short_note_skipped_but_counted (env : IndexEnv) (st : IndexStats)
    (doc : Doc) (h : noteSkipped doc = true) :
    indexNote env st doc = (Except.ok st, []) ∧
    (∀ (getAll : Option (List Doc)) (vecTotal : Nat) (env2 : IndexEnv)
        (st2 : IndexStats),
      (findPendingNotes getAll vecTotal st2).2 = [doc] →
      (reindexAll getAll vecTotal env2 st2).2 = Except.ok 1) := by
  constructor
  · simp [indexNote, h]
  · intro getAll vecTotal env2 st2 hp
    unfold reindexAll
    rcases hr : runReindexNotes env2 (findPendingNotes getAll vecTotal st2).1
        (findPendingNotes getAll vecTotal st2).2 with ⟨st3, b⟩
    have hb : b = true := by
      rw [hp] at hr
      simp [runReindexNotes, indexNote_fst, h, Prod.ext_iff] at hr
      exact hr.2
    subst hb
    rw [hp] at hr
    simp only [hp]
    rw [hr]
    rfl

/-- C10 (witness): the 5-character note `"short"` is skipped with no effects
and unchanged counters, yet a reindex discovering only it reports
`notes_processed = 1`. -/
theorem c10_witness :
    indexNote
        ⟨fun _ => ⟨[], "Inbox", "", []⟩, fun _ => none, fun _ => none,
         fun _ => true⟩
        ⟨0, 0, 0, 0⟩ ⟨some "n2", "Inbox/n2", "short", 0, 0⟩ =
      (Except.ok ⟨0, 0, 0, 0⟩, []) ∧
    (reindexAll (some [⟨some "n2", "Inbox/n2", "short", 0, 0⟩]) 0
        ⟨fun _ => ⟨[], "Inbox", "", []⟩, fun _ => none, fun _ => none,
         fun _ => true⟩
        ⟨0, 0, 0, 0⟩).2 = Except.ok 1 := by
  have h := c10_short_note_skipped_but_counted
    ⟨fun _ => ⟨[], "Inbox", "", []⟩, fun _ => none, fun _ => none,
     fun _ => true⟩
    ⟨0, 0, 0, 0⟩ ⟨some "n2", "Inbox/n2", "short", 0, 0⟩ (by decide)
  refine ⟨h.1, h.2 _ 0 _ ⟨0, 0, 0, 0⟩ ?_⟩
  simp only [findPendingNotes]
  rw [show ([(⟨some "n2", "Inbox/n2", "short", 0, 0⟩ : Doc)].filter
    (fun d => !(hasIndexedMarker d.data))) =
    [⟨some "n2", "Inbox/n2", "short", 0, 0⟩] from by decide]
  simp

end SecondBrain
